import Mathlib

/-!
Verification of the natural-language specification of the `ai-sql-generator`
repository (a natural-language-to-SQL assistant) against a shallow embedding of
its TypeScript source.

The embedding models the pure computational content of the source files:

* `src/services/gemini.service.ts` — two concatenated revisions: the original
  `GeminiService` class (here namespace `Gemini1`) and a server module holding
  the execute/regenerate orchestration (`validateQuerySafety`,
  `executeQueryWithHandling`, `handleQueryRegeneration`,
  `executeRegeneratedQuery`, `handleRegenerationError`), modelled below in
  namespace `Server`.
* `src/services/db.service.ts` — `OpenAIService` (namespace `OpenAIService`)
  and a later `GeminiService` revision (namespace `Gemini2`).
* `src/constants/gemini.constant.ts` — `analyzeError`.
* `src/constants/server.constant.ts` — schema introspection
  (`getTables`, `getTableColumns`, `getSampleData`, `buildSchema`,
  `processSchemaRequest`).

External collaborators (the LLM network call, `JSON.parse`, the database
driver, the connection pool) are modelled as oracles passed in explicitly;
thrown JavaScript errors are modelled as `Except String` with the error
message as the payload.  JavaScript dynamic values appearing in parsed JSON
are modelled by the inductive `JVal`; decimal numbers are carried as a scaled
integer (mantissa and number of fractional digits), matching the decimal
literal the JSON parser consumed.
-/

/-! ## Character and string primitives -/

/-- ASCII whitespace as matched by the JavaScript `trim`/`\s` operations used
by the source (the full JS set also has some exotic Unicode spaces, which the
strings in play never contain). -/
def jsWhitespace (c : Char) : Bool :=
  c == ' ' || c == '\t' || c == '\n' || c == '\r' || c == '\x0b' || c == '\x0c'

/-- JavaScript regex word character (`\w` = `[A-Za-z0-9_]`). -/
def isWordChar (c : Char) : Bool := c.isAlpha || c.isDigit || c == '_'

/-- Drop trailing characters satisfying `p`. -/
def dropTrailing (p : Char → Bool) (l : List Char) : List Char :=
  (l.reverse.dropWhile p).reverse

/-- `String.prototype.trim()` on the character list. -/
def trimChars (l : List Char) : List Char :=
  dropTrailing jsWhitespace (l.dropWhile jsWhitespace)

/-- `String.prototype.trim()`. -/
def trimJS (s : String) : String := String.mk (trimChars s.data)

/-- Whether `pat` occurs as a contiguous substring of `l`
(JavaScript `String.prototype.includes` / an unanchored regex literal). -/
def occursIn (pat : List Char) : List Char → Bool
  | [] => pat.isEmpty
  | c :: rest => pat.isPrefixOf (c :: rest) || occursIn pat rest

/-- `Array.prototype.join(sep)`. -/
def joinSep (sep : String) : List String → String
  | [] => ""
  | [s] => s
  | s :: rest => s ++ sep ++ joinSep sep rest

/-! ## The response cleaner (`cleanResponse`)

`cleanResponse` is textually identical in `GeminiService`
(`gemini.service.ts`), `OpenAIService` and the later `GeminiService`
(`db.service.ts`):

```
return response.trim()
  .replace(/^```(json)?\s*/, '')
  .replace(/\s*```$/, '')
  .replace(/\/\/.*\/g, '')
  .trim();
```
-/

/-- One application of `.replace(/^(three backticks)(json)?\s*\/, '')`. -/
def stripLeadingFence : List Char → List Char
  | '\x60' :: '\x60' :: '\x60' :: rest =>
    (match rest with
     | 'j' :: 's' :: 'o' :: 'n' :: r => r
     | r => r).dropWhile jsWhitespace
  | l => l

/-- One application of `.replace(/\s*(three backticks)$/, '')`. -/
def stripTrailingFence (l : List Char) : List Char :=
  match l.reverse with
  | '\x60' :: '\x60' :: '\x60' :: rest => (rest.dropWhile jsWhitespace).reverse
  | _ => l

/-- Whether `c` terminates the `.` of a JavaScript regex (`.` matches
everything except line terminators). -/
def isLineEnd (c : Char) : Bool := c == '\n' || c == '\r'

/-- `.replace(/\/\/.*\/g, '')`: delete every `//` together with the rest of
its line (the line terminator itself is kept, since `.` does not match it).
The boolean is true while skipping a matched comment. -/
def stripLC : Bool → List Char → List Char
  | _, [] => []
  | true, c :: rest =>
    if isLineEnd c then c :: stripLC false rest else stripLC true rest
  | false, '/' :: '/' :: rest => stripLC true rest
  | false, c :: rest => c :: stripLC false rest

/-- `cleanResponse` from the source (identical in all three AI services). -/
def cleanResponse (response : String) : String :=
  String.mk (trimChars (stripLC false (stripTrailingFence (stripLeadingFence
    (trimChars response.data)))))

/-! ## The static unsafe-SQL check

```
private readonly unsafePatterns = [
  /\bDROP\b/i, /\bTRUNCATE\b/i, /\bALTER\b/i, /\bDELETE\b/i, /\bUPDATE\b/i,
];
private checkUnsafeOperations(sql: string): boolean {
  return this.unsafePatterns.some(pattern => pattern.test(sql));
}
```
identical in all three AI services. -/

/-- Case-insensitive prefix match of the keyword against the list. -/
def matchesCI : List Char → List Char → Bool
  | [], _ => true
  | _ :: _, [] => false
  | k :: ks, c :: cs => (k.toLower == c.toLower) && matchesCI ks cs

/-- The `\b` after the keyword: the next character, if any, is not a word
character (all keyword characters are word characters). -/
def boundaryAfter : List Char → Bool
  | [] => true
  | c :: _ => !isWordChar c

/-- The keyword matches at the head of `s` with a word boundary after it. -/
def wordAt (kw s : List Char) : Bool :=
  matchesCI kw s && boundaryAfter (s.drop kw.length)

/-- Scan for `/\bkw\b/i`; `prevWord` records whether the character before the
current position is a word character (the `\b` before the keyword). -/
def scanWord (kw : List Char) : Bool → List Char → Bool
  | _, [] => false
  | prevWord, c :: cs => (!prevWord && wordAt kw (c :: cs)) || scanWord kw (isWordChar c) cs

/-- `/\bkw\b/i.test(s)` for a keyword made of word characters. -/
def testWordBoundaryCI (kw s : String) : Bool := scanWord kw.data false s.data

/-- The fixed keyword list of `unsafePatterns`. -/
def unsafeKeywords : List String := ["DROP", "TRUNCATE", "ALTER", "DELETE", "UPDATE"]

/-- `checkUnsafeOperations` from the source. -/
def checkUnsafeOperations (sql : String) : Bool :=
  unsafeKeywords.any (fun kw => testWordBoundaryCI kw sql)

/-- Specification-side reading of a word-boundary match: some contiguous
segment of `s` equals `kw` up to letter case, the character before the
segment (if any) is not a word character, and the character after the
segment (if any) is not a word character. -/
def ContainsWholeWordCI (kw s : String) : Prop :=
  ∃ l m r : List Char,
    s.data = l ++ m ++ r ∧
    m.map Char.toLower = kw.data.map Char.toLower ∧
    (l = [] ∨ ∃ l0 c, l = l0 ++ [c] ∧ isWordChar c = false) ∧
    (r = [] ∨ ∃ c r0, r = c :: r0 ∧ isWordChar c = false)

/-- Whether the character to the left of the match position (the last of `l`, or the scan context for `l = []`) is not a word character. -/
def leftOk (prevWord : Bool) : List Char → Bool
  | [] => !prevWord
  | [c] => !isWordChar c
  | _ :: c :: l => leftOk prevWord (c :: l)

/-! ## Dynamic JSON values -/

/-- A JavaScript value as produced by `JSON.parse` (plus `undefined` for a
missing property).  Numbers are carried as decimal mantissa and fractional
digit count, e.g. `9.99` is `jnum 999 2` and `1` is `jnum 1 0`. -/
inductive JVal where
  | jundef
  | jnull
  | jbool (b : Bool)
  | jnum (m : Int) (d : Nat)
  | jstr (s : String)
  deriving DecidableEq

/-- JavaScript truthiness of a `JVal`. -/
def truthy : JVal → Bool
  | .jundef => false
  | .jnull => false
  | .jbool b => b
  | .jnum m _ => m != 0
  | .jstr s => s != ""

/-- `typeof v === 'string'`. -/
def isStringJ : JVal → Bool
  | .jstr _ => true
  | _ => false

/-- `typeof v === 'boolean'`. -/
def isBooleanJ : JVal → Bool
  | .jbool _ => true
  | _ => false

/-- Render a scaled decimal the way JavaScript prints the number literal it
was parsed from (`renderNum 999 2 = "9.99"`, `renderNum 1 0 = "1"`). -/
def renderNum (m : Int) (d : Nat) : String :=
  let sign := if m < 0 then "-" else ""
  let n := m.natAbs
  if d == 0 then sign ++ toString n
  else
    let frac := toString (n % 10 ^ d)
    sign ++ toString (n / 10 ^ d) ++ "." ++
      String.mk (List.replicate (d - frac.length) '0') ++ frac

/-- JavaScript string coercion of a `JVal` (template-literal interpolation). -/
def jvalToString : JVal → String
  | .jundef => "undefined"
  | .jnull => "null"
  | .jbool true => "true"
  | .jbool false => "false"
  | .jnum m d => renderNum m d
  | .jstr s => s

/-- Minimal JSON string escaping (backslash and double quote; the sample
values in play contain neither). -/
def escapeJson (s : String) : String :=
  String.mk (s.data.flatMap (fun c =>
    if c == '\\' then ['\\', '\\'] else if c == '"' then ['\\', '"'] else [c]))

/-- `JSON.stringify` of a `JVal`. -/
def jsonStringify : JVal → String
  | .jundef => "undefined"
  | .jnull => "null"
  | .jbool true => "true"
  | .jbool false => "false"
  | .jnum m d => renderNum m d
  | .jstr s => "\"" ++ escapeJson s ++ "\""

/-- The `chartConfig` property of a parsed reply: only its `type` property is
ever inspected by the source. -/
structure RawChart where
  type : JVal
  deriving DecidableEq

/-- A parsed LLM reply before validation: the four properties the services
read off the object `JSON.parse` returned.  `chartConfig := none` models an
absent or falsy `chartConfig` property (the source only tests its
truthiness before reading `.type`). -/
structure RawResult where
  sql : JVal
  isUnsafe : JVal
  explanation : JVal
  chartConfig : Option RawChart
  deriving DecidableEq

/-- `Array.prototype.includes` of a string list against a dynamic value:
only a string member can compare equal. -/
def includesStr (l : List String) (v : JVal) : Bool :=
  match v with
  | .jstr s => l.contains s
  | _ => false

/-- The shared field check
`sql && typeof sql === 'string' && typeof isUnsafe === 'boolean' && explanation && typeof explanation === 'string'`. -/
def isValidShape (r : RawResult) : Bool :=
  truthy r.sql && isStringJ r.sql && isBooleanJ r.isUnsafe &&
    truthy r.explanation && isStringJ r.explanation

/-! ## Shared schema rendering (`formatColumnInfo` / `formatTableSchema`)

Textually identical in `OpenAIService` and the `db.service.ts`
`GeminiService`; the earlier `gemini.service.ts` `GeminiService` uses the
same column rendering without the sample-data section. -/

/-- One column of a table schema as consumed by the prompt builders. -/
structure ColumnSchema where
  name : String
  type : String
  key : Option String
  deriving DecidableEq

/-- A table schema with optional sample row (`Object.entries` order). -/
structure TableSchema where
  tableName : String
  columns : List ColumnSchema
  sampleData : Option (List (String × JVal))
  deriving DecidableEq

/-- `formatColumnInfo`: `name (type)` with ` PRIMARY KEY` appended exactly
when `col.key === 'PRI'`. -/
def formatColumnInfo (col : ColumnSchema) : String :=
  col.name ++ " (" ++ col.type ++ ")" ++
    (if col.key == some "PRI" then " PRIMARY KEY" else "")

/-- Rendering of one sample value: `value === null ? 'NULL' : JSON.stringify(value)`. -/
def sampleValueStr (v : JVal) : String :=
  match v with
  | .jnull => "NULL"
  | v => jsonStringify v

/-- `formatTableSchema` (db.service.ts form, with the sample-data section). -/
def formatTableSchema (table : TableSchema) : String :=
  let columns := joinSep ", " (table.columns.map formatColumnInfo)
  let schemaInfo := "Table " ++ table.tableName ++ ": " ++ columns
  match table.sampleData with
  | some entries =>
    if entries.length > 0 then
      schemaInfo ++ "\nSample Data: \x7b " ++
        joinSep ", " (entries.map (fun kv => kv.1 ++ ": " ++ sampleValueStr kv.2)) ++
        " \x7d"
    else schemaInfo
  | none => schemaInfo

/-! ## The generation pipeline shared by the three services

`generateQuery` in every service runs `generateContent` (the network call,
an oracle here), `cleanResponse`, `JSON.parse` (an oracle), a per-service
`validateQueryResult`, and then
`queryResult.isUnsafe ||= this.checkUnsafeOperations(queryResult.sql)`.
Every error thrown inside the `try` block is rethrown as
`Failed to generate SQL query: <message>`. -/

/-- `queryResult.isUnsafe ||= this.checkUnsafeOperations(queryResult.sql)`. -/
def applyUnsafeCheck (q : RawResult) : RawResult :=
  if truthy q.isUnsafe then q
  else { q with isUnsafe := .jbool (checkUnsafeOperations (jvalToString q.sql)) }

/-- `parseAndValidateResponse`, parameterised by the service's validator and
the `JSON.parse` oracle. -/
def parseAndValidateWith (validate : RawResult → Except String Unit)
    (parse : String → Except String RawResult) (response : String) :
    Except String RawResult :=
  match parse (cleanResponse response) with
  | .error e => .error e
  | .ok queryResult =>
    match validate queryResult with
    | .error e => .error e
    | .ok _ => .ok queryResult

/-- The `try` body of `generateQuery` after the prompt was built: network
call, parse, validate, derive `isUnsafe`; the catch-all wraps any error.
The returned boolean records whether the network call was made. -/
def llmRoundTrip (validate : RawResult → Except String Unit)
    (llmReply : Except String String)
    (parse : String → Except String RawResult) :
    Bool × Except String RawResult :=
  match llmReply with
  | .error e => (true, .error ("Failed to generate SQL query: " ++ e))
  | .ok response =>
    match parseAndValidateWith validate parse response with
    | .error e => (true, .error ("Failed to generate SQL query: " ++ e))
    | .ok queryResult => (true, .ok (applyUnsafeCheck queryResult))

namespace Gemini1

/-- `validateQueryResult` of the `gemini.service.ts` `GeminiService`: the
shared field check only (its `QueryResult` has no chart field). -/
def validateQueryResult (r : RawResult) : Except String Unit :=
  if !isValidShape r then .error "Invalid response format from Gemini API"
  else .ok ()

/-- `generateQuery` of the `gemini.service.ts` `GeminiService`.  With an
`errorMessage` the prompt is built by `generateErrorFixPrompt`, which does
not validate inputs; without one, `generatePrompt` runs `validateInputs`
(`!schema?.length` / `!question?.trim()`) inside the `try` block, so its
errors are wrapped by the catch-all. -/
def generateQuery (schema : List TableSchema) (question : String)
    (errorMessage : Option String) (referenceText : Option String)
    (llmReply : Except String String)
    (parse : String → Except String RawResult) :
    Bool × Except String RawResult :=
  match errorMessage with
  | some _ => llmRoundTrip validateQueryResult llmReply parse
  | none =>
    if schema.isEmpty then
      (false, .error "Failed to generate SQL query: Database schema is required")
    else if trimJS question == "" then
      (false, .error "Failed to generate SQL query: Question is required")
    else llmRoundTrip validateQueryResult llmReply parse

end Gemini1

namespace OpenAIService

/-- The chart-kind list of `OpenAIService.validateQueryResult`. -/
def validChartTypes : List String :=
  ["any", "pie", "line", "bar", "doughnut", "polarArea", "radar", "scatter",
   "bubble", "mixed"]

/-- `OpenAIService.validateQueryResult`: shared field check, then
`validChartTypes.includes(chartConfig.type)` when `chartConfig` is truthy. -/
def validateQueryResult (r : RawResult) : Except String Unit :=
  if !isValidShape r then .error "Invalid response format from OpenAI API"
  else
    match r.chartConfig with
    | some chartConfig =>
      if !includesStr validChartTypes chartConfig.type then
        .error ("Invalid chart type: " ++ jvalToString chartConfig.type)
      else .ok ()
    | none => .ok ()

/-- `OpenAIService.generateQuery`: `validateInputs` runs before the `try`
block on every path (its errors are not wrapped), then the shared
pipeline. -/
def generateQuery (schema : List TableSchema) (question : String)
    (errorMessage : Option String) (referenceText : Option String)
    (chartType : Option String)
    (llmReply : Except String String)
    (parse : String → Except String RawResult) :
    Bool × Except String RawResult :=
  if schema.isEmpty then (false, .error "Database schema is required")
  else if trimJS question == "" then (false, .error "Question is required")
  else llmRoundTrip validateQueryResult llmReply parse

end OpenAIService

namespace Gemini2

/-- The chart-kind list of the `db.service.ts` `GeminiService`
`validateQueryResult`. -/
def validChartTypes : List String := ["pie", "line", "bar"]

/-- `validateQueryResult` of the `db.service.ts` `GeminiService`. -/
def validateQueryResult (r : RawResult) : Except String Unit :=
  if !isValidShape r then .error "Invalid response format from Gemini API"
  else
    match r.chartConfig with
    | some chartConfig =>
      if !includesStr validChartTypes chartConfig.type then
        .error ("Invalid chart type: " ++ jvalToString chartConfig.type)
      else .ok ()
    | none => .ok ()

/-- `generateQuery` of the `db.service.ts` `GeminiService`: it builds the
prompt with `generatePromptTemplate` directly and never calls
`validateInputs` on this path, so the pipeline runs for every input. -/
def generateQuery (schema : List TableSchema) (question : String)
    (errorMessage : Option String) (referenceText : Option String)
    (chartType : Option String)
    (llmReply : Except String String)
    (parse : String → Except String RawResult) :
    Bool × Except String RawResult :=
  llmRoundTrip validateQueryResult llmReply parse

end Gemini2

/-! ## The execute/regenerate orchestrator

Embeds the server module concatenated into `src/services/gemini.service.ts`:
`validateQuerySafety`, `handleQueryExecution`, `executeQueryWithHandling`,
`handleQueryRegeneration`, `regenerateQuery`, `executeRegeneratedQuery`,
`handleRegenerationError`, `handleQueryError`, `handleExecutionError`.
The database pool and the LLM are oracles in `ExecEnv`; every external call
is recorded as an `Event` so call counts and ordering can be stated. -/

/-- A database row as returned by the driver. -/
abbrev Row := List (String × JVal)

/-- A driver result set. -/
abbrev Rows := List Row

namespace Server

/-- Observable calls made while handling one execute request. -/
inductive Event where
  | safetyCheck (isUnsafe allowUnsafe : Bool)
  | connectCall
  | execCall (sql : String)
  | genCall
  deriving DecidableEq

/-- The JSON body written back to the caller (with HTTP status where the
source computes one). -/
inductive Response where
  | okRows (results : Rows)
  | okRegen (results : Rows) (sql explanation : String) (originalError : String)
  | errRegen (error originalError : String) (status : Nat)
  | errOut (error : String) (status : Nat)
  deriving DecidableEq

/-- Oracles for one request: the policy flag
(`process.env.ALLOW_UNSAFE_QUERIES === 'true'`), the pool
initialisation outcome (`initializeDatabasePool`, message already wrapped by
`testConnection` on failure), `pool.query` keyed by the SQL text, and the
regeneration service's network and `JSON.parse` oracles. -/
structure ExecEnv where
  allowUnsafeQueries : Bool
  connect : Except String Unit
  dbQuery : String → Except String Rows
  llmReply : Except String String
  parse : String → Except String RawResult

/-- The `ExecuteQueryRequest` body fields the handler reads. -/
structure ExecuteQueryRequest where
  query : String
  isUnsafe : Bool
  schema : Option (List TableSchema)
  question : Option String
  referenceText : Option String
  chartType : Option String

/-- The message thrown by `validateQuerySafety`. -/
def unsafeQueriesMessage : String :=
  "Unsafe queries (UPDATE/DELETE) are not allowed. Update ALLOW_UNSAFE_QUERIES in .env to enable."

/-- `validateQuerySafety(isUnsafe)`: throws iff the flag is set and the
policy flag is not. -/
def validateQuerySafety (isUnsafe allowUnsafeQueries : Bool) : Except String Unit :=
  if isUnsafe && !allowUnsafeQueries then .error unsafeQueriesMessage else .ok ()

/-- Status computation of `handleQueryError` / `handleExecutionError`:
`message.includes('Unsafe queries') ? 403 : 500`. -/
def statusFor (message : String) : Nat :=
  if occursIn "Unsafe queries".data message.data then 403 else 500

/-- `regenerateQuery`: `geminiService.generateQuery(schema, question,
errorMessage, referenceText, chartType)` (the five-argument service of
`db.service.ts`). -/
def regenerateQuery (env : ExecEnv) (schema : List TableSchema) (question : String)
    (errorMessage : String) (referenceText chartType : Option String) :
    Bool × Except String RawResult :=
  Gemini2.generateQuery schema question (some errorMessage) referenceText chartType
    env.llmReply env.parse

/-- `executeRegeneratedQuery`: runs `pool.query(regenerated.sql)` directly —
note there is no `validateQuerySafety` call on this path — and on success
bundles the regenerated sql, its explanation and the original error. -/
def executeRegeneratedQuery (env : ExecEnv) (regenerated : RawResult)
    (errorMessage : String) : List Event × Response :=
  let sql := jvalToString regenerated.sql
  match env.dbQuery sql with
  | .ok results =>
    ([.execCall sql],
     .okRegen results sql (jvalToString regenerated.explanation) errorMessage)
  | .error e => ([.execCall sql], .errRegen e errorMessage 500)

/-- `handleQueryRegeneration`: regenerate once; any error from the
regeneration call or the second execution reaches `handleRegenerationError`,
which answers 500 with both the new error and the original one. -/
def handleQueryRegeneration (env : ExecEnv) (queryError : String)
    (schema : List TableSchema) (question : String)
    (referenceText chartType : Option String) : List Event × Response :=
  match (regenerateQuery env schema question queryError referenceText chartType).2 with
  | .error regenerateError => ([.genCall], .errRegen regenerateError queryError 500)
  | .ok regenerated =>
    let p := executeRegeneratedQuery env regenerated queryError
    (.genCall :: p.1, p.2)

/-- `handleQueryError`. -/
def handleQueryError (queryError : String) : Response :=
  .errOut queryError (statusFor queryError)

/-- `executeQueryWithHandling`: first execution attempt; on failure the
regeneration path is taken only when `schema && question` is truthy
(`schema` present, `question` present and non-empty). -/
def executeQueryWithHandling (env : ExecEnv) (req : ExecuteQueryRequest) :
    List Event × Response :=
  match env.dbQuery req.query with
  | .ok results => ([.execCall req.query], .okRows results)
  | .error queryError =>
    match req.schema, req.question with
    | some schema, some question =>
      if question == "" then ([.execCall req.query], handleQueryError queryError)
      else
        let p := handleQueryRegeneration env queryError schema question
          req.referenceText req.chartType
        (.execCall req.query :: p.1, p.2)
    | _, _ => ([.execCall req.query], handleQueryError queryError)

/-- `handleQueryExecution`: `validateQuerySafety` on the request flag, pool
initialisation, then `executeQueryWithHandling`; errors thrown before the
first execution reach `handleExecutionError` (status via `statusFor`). -/
def handleQueryExecution (env : ExecEnv) (req : ExecuteQueryRequest) :
    List Event × Response :=
  match validateQuerySafety req.isUnsafe env.allowUnsafeQueries with
  | .error e =>
    ([.safetyCheck req.isUnsafe env.allowUnsafeQueries], .errOut e (statusFor e))
  | .ok _ =>
    match env.connect with
    | .error e =>
      ([.safetyCheck req.isUnsafe env.allowUnsafeQueries, .connectCall],
       .errOut e (statusFor e))
    | .ok _ =>
      let p := executeQueryWithHandling env req
      (.safetyCheck req.isUnsafe env.allowUnsafeQueries :: .connectCall :: p.1, p.2)

/-- Executor calls in a trace. -/
def isExecEvent : Event → Bool
  | .execCall _ => true
  | _ => false

/-- Generation-service calls in a trace. -/
def isGenEvent : Event → Bool
  | .genCall => true
  | _ => false

/-- Safety-gate calls in a trace. -/
def isSafetyEvent : Event → Bool
  | .safetyCheck _ _ => true
  | _ => false

/-- Number of executor invocations. -/
def countExec (tr : List Event) : Nat := tr.countP isExecEvent

/-- Number of generation-service invocations. -/
def countGen (tr : List Event) : Nat := tr.countP isGenEvent

/-- Number of safety-gate invocations. -/
def countSafety (tr : List Event) : Nat := tr.countP isSafetyEvent

end Server

/-! ## Schema introspection (`server.constant.ts`) -/

/-- A column row as selected from `information_schema.COLUMNS`. -/
structure ColumnInfo where
  name : String
  type : String
  nullable : String
  key : Option String
  default : Option String
  extra : Option String
  deriving DecidableEq

/-- The `TableSchema` shape built by `buildSchema` in `server.constant.ts`. -/
structure IntrospectedTable where
  tableName : String
  columns : List ColumnInfo
  sampleData : Option Row
  deriving DecidableEq

/-- Oracles for the leaf database calls of schema introspection. -/
structure SchemaEnv where
  connectProbe : Except String Unit
  listTables : Except String (List String)
  describeColumns : String → Except String (List ColumnInfo)
  sampleRows : String → Except String Rows

/-- `testConnection`: wraps a failed probe as
`Failed to connect to database: <message>`. -/
def testConnection (probe : Except String Unit) : Except String Unit :=
  match probe with
  | .ok _ => .ok ()
  | .error e => .error ("Failed to connect to database: " ++ e)

/-- `getTables`: the catch block logs and returns `[]`. -/
def getTables (env : SchemaEnv) : List String :=
  match env.listTables with
  | .ok tables => tables
  | .error _ => []

/-- `getTableColumns`: the catch block logs and returns `[]`. -/
def getTableColumns (env : SchemaEnv) (tableName : String) : List ColumnInfo :=
  match env.describeColumns tableName with
  | .ok columns => columns
  | .error _ => []

/-- `getSampleData`: first row if any; the catch block logs and returns
`undefined`. -/
def getSampleData (env : SchemaEnv) (tableName : String) : Option Row :=
  match env.sampleRows tableName with
  | .ok rows => rows.head?
  | .error _ => none

/-- `buildSchema`: the sequential loop over discovered tables. -/
def buildSchema (env : SchemaEnv) : List String → List IntrospectedTable
  | [] => []
  | table :: rest =>
    ⟨table, getTableColumns env table, getSampleData env table⟩ :: buildSchema env rest

/-- `processSchemaRequest`: connect probe, list tables, build the schema. -/
def processSchemaRequest (env : SchemaEnv) : Except String (List IntrospectedTable) :=
  match testConnection env.connectProbe with
  | .error e => .error e
  | .ok _ => .ok (buildSchema env (getTables env))

/-! ## Error classification for regeneration prompts (`gemini.constant.ts`) -/

/-- `String.prototype.toLowerCase()` (ASCII; the matched substrings are all
ASCII). -/
def lowerStr (s : String) : String := String.mk (s.data.map Char.toLower)

/-- Corrective instruction for the `syntax error` category. -/
def adviceSyntax : String :=
  "The previous query had a syntax error. Carefully check for typos, incorrect use of keywords (e.g., SELECT, FROM, WHERE, JOIN), and missing semicolons. Double check all column and table names used in query are present in schema."

/-- Corrective instruction for the `ambiguous column` category. -/
def adviceAmbiguous : String :=
  "The previous query had an ambiguous column name. This means the same column name exists in multiple tables you are joining.  Explicitly specify the table name when referencing the column (e.g., table1.columnName)."

/-- Corrective instruction for the `invalid column` category. -/
def adviceInvalidColumn : String :=
  "The previous query used an invalid column name. Double-check the schema to make sure that the column exists and is spelled correctly. Also verify the correct table name."

/-- Corrective instruction for the `table not found` category. -/
def adviceTableNotFound : String :=
  "The previous query used a table name that does not exist. Double-check the schema to make sure that the table exists and is spelled correctly."

/-- Corrective instruction for the `group by` category. -/
def adviceGroupBy : String :=
  "The previous query used a \x27GROUP BY\x27 clause incorrectly. Ensure that all non-aggregated columns in the SELECT statement are also included in the GROUP BY clause. If you are trying to filter after grouping, use a \x27HAVING\x27 clause instead of \x27WHERE\x27."

/-- Corrective instruction for the `incorrect number of arguments` category. -/
def adviceArgCount : String :=
  "The previous query used a function or operator with an incorrect number of arguments. Check the documentation for the specific function you\x27re using to ensure you\x27re passing the correct number and type of parameters."

/-- Corrective instruction for the `does not exist` category. -/
def adviceDoesNotExist : String :=
  "The previous query used a function or column that does not exist in the database or is not valid in this context.  Carefully review the database schema to ensure that the function or column is available and spelled correctly. Pay close attention to case sensitivity, the function might have different casing in schema definition. Also verify if you are using column with correct table."

/-- The generic fallback instruction, quoting the raw error message. -/
def adviceFallback (errorMessage : String) : String :=
  "The previous query generated resulted in an error: \"" ++ errorMessage ++
    "\".  Please analyze the error message carefully and identify the cause of the problem. Ensure all column and table names used in query are present in schema. Use given reference document for additional context."

/-- The trailing sentence appended to every analysis. -/
def adviceSuffix : String :=
  " Based on the previous error, make sure the query generated have no issue. Do not repeat the same mistake."

/-- `analyzeError` from `gemini.constant.ts`: the ordered
`errorMessage.toLowerCase().includes(...)` chain. -/
def analyzeError (errorMessage : String) : String :=
  let lower := lowerStr errorMessage
  let errorAnalysis :=
    if occursIn "syntax error".data lower.data then adviceSyntax
    else if occursIn "ambiguous column".data lower.data then adviceAmbiguous
    else if occursIn "invalid column".data lower.data then adviceInvalidColumn
    else if occursIn "table not found".data lower.data then adviceTableNotFound
    else if occursIn "group by".data lower.data then adviceGroupBy
    else if occursIn "incorrect number of arguments".data lower.data then adviceArgCount
    else if occursIn "does not exist".data lower.data then adviceDoesNotExist
    else adviceFallback errorMessage
  errorAnalysis ++ adviceSuffix

/-- Specification-side reading of the classifier: the fixed ordered category
list (substring to look for, instruction to splice in). -/
def errorCategories : List (String × String) :=
  [("syntax error", adviceSyntax),
   ("ambiguous column", adviceAmbiguous),
   ("invalid column", adviceInvalidColumn),
   ("table not found", adviceTableNotFound),
   ("group by", adviceGroupBy),
   ("incorrect number of arguments", adviceArgCount),
   ("does not exist", adviceDoesNotExist)]

/-- Specification-side classifier: instruction of the first category whose
substring occurs case-insensitively in the message, else the fallback. -/
def classifyError (errorMessage : String) : String :=
  match errorCategories.find?
      (fun cat => occursIn cat.1.data (lowerStr errorMessage).data) with
  | some cat => cat.2
  | none => adviceFallback errorMessage

/-! ## Specification-side data and concrete fixtures used by the claims -/

/-- The recognized chart-kind enumeration exactly as the specification lists
it. -/
def recognizedChartKinds : List String :=
  ["pie", "line", "bar", "doughnut", "polarArea", "radar", "scatter", "bubble",
   "mixed", "any"]

/-- A `JSON.parse` oracle that always fails (never reached in the scenarios
using it). -/
def parseNever : String → Except String RawResult := fun _ => .error "unused"

/-- The `orders` table of the specification's round-trip example:
`orders(id INT PRIMARY KEY, total DECIMAL)` with sample row
`{id: 1, total: 9.99}`. -/
def ordersTable : TableSchema :=
  ⟨"orders",
   [⟨"id", "INT", some "PRI"⟩, ⟨"total", "DECIMAL", none⟩],
   some [("id", .jnum 1 0), ("total", .jnum 999 2)]⟩

/-- A two-column `users` table. -/
def usersTable : TableSchema :=
  ⟨"users", [⟨"id", "INT", some "PRI"⟩, ⟨"name", "VARCHAR(100)", none⟩], none⟩

/-- A well-formed parsed reply whose sql is a DROP statement but whose
self-reported `isUnsafe` is `false`. -/
def rawDropReply : RawResult :=
  ⟨.jstr "DROP TABLE t", .jbool false, .jstr "drops the table", none⟩

/-- A parse oracle returning `rawDropReply`. -/
def parseDrop : String → Except String RawResult := fun _ => .ok rawDropReply

/-- `rawDropReply` after the service re-derived `isUnsafe`. -/
def qDrop : RawResult :=
  ⟨.jstr "DROP TABLE t", .jbool true, .jstr "drops the table", none⟩

/-- A well-formed parsed reply with a recognized chart kind. -/
def chartOkReply : RawResult :=
  ⟨.jstr "SELECT 1", .jbool false, .jstr "one row", some ⟨.jstr "doughnut"⟩⟩

/-- A well-formed parsed reply whose regenerated sql is a DELETE statement,
self-reported safe. -/
def rawDeleteReply : RawResult :=
  ⟨.jstr "DELETE FROM users", .jbool false, .jstr "removes all user rows", none⟩

/-- Execute-request oracles for the C1 failing input: default policy, the
original query fails, the LLM proposes the DELETE, which then executes. -/
def envC1 : Server.ExecEnv :=
  ⟨false, .ok (),
   fun sql => if sql == "DELETE FROM users" then .ok [[("affected", .jnum 5 0)]]
              else .error "Unknown column name in field list",
   .ok "llm reply", fun _ => .ok rawDeleteReply⟩

/-- The C1 failing request: a safe SELECT with schema and question attached. -/
def reqC1 : Server.ExecuteQueryRequest :=
  ⟨"SELECT name FROM user", false, some [usersTable], some "list user names",
   none, none⟩

/-- An execute request without schema or question context. -/
def reqNoContext : Server.ExecuteQueryRequest :=
  ⟨"SELECT 1", false, none, none, none, none⟩

/-- An execute request with schema and question context. -/
def reqWithContext : Server.ExecuteQueryRequest :=
  ⟨"SELECT name FROM users", false, some [usersTable], some "list names",
   none, none⟩

/-- Oracles whose database always fails and whose reply never parses. -/
def envAlwaysFail : Server.ExecEnv :=
  ⟨false, .ok (), fun _ => .error "table missing", .ok "r", parseNever⟩

/-- Introspection oracles whose table listing fails. -/
def envListFail : SchemaEnv :=
  ⟨.ok (), .error "metadata query failed", fun _ => .error "x",
   fun _ => .error "y"⟩

/-- Introspection oracles whose connectivity probe fails. -/
def envConnFail : SchemaEnv :=
  ⟨.error "ECONNREFUSED", .ok [], fun _ => .ok [], fun _ => .ok []⟩

/-- The C10 example reply: well-formed JSON whose explanation contains a
URL. -/
def c10Reply : String :=
  "\x7b\"sql\": \"SELECT * FROM t\", \"explanation\": \"see https://docs.example\"\x7d"

/-- What the cleaner leaves of `c10Reply`: truncated at the URL's `//`. -/
def c10Expected : String :=
  "\x7b\"sql\": \"SELECT * FROM t\", \"explanation\": \"see https:"

/-! ## Helper lemmas about the string primitives -/

/-- `occursIn` decides list infixhood. -/
theorem occursIn_iff (pat l : List Char) : occursIn pat l = true ↔ pat <:+: l := by
  induction l with
  | nil =>
    simp [occursIn, List.isEmpty_iff]
  | cons c rest ih =>
    simp [occursIn, ih, List.isPrefixOf_iff_prefix, List.infix_cons_iff]

/-- Trimming yields an infix of the original list. -/
theorem trimChars_within (l : List Char) : trimChars l <:+: l := by
  unfold trimChars dropTrailing
  have h1 : l.dropWhile jsWhitespace <:+ l := List.dropWhile_suffix _
  have h2 : ((l.dropWhile jsWhitespace).reverse.dropWhile jsWhitespace).reverse
      <+: l.dropWhile jsWhitespace := by
    rw [← List.reverse_suffix]
    simpa using List.dropWhile_suffix (l := (l.dropWhile jsWhitespace).reverse) jsWhitespace
  exact h2.isInfix.trans h1.isInfix

/-- A leading slash in the comment stripper's output comes from a leading
slash of its input, and only outside a comment. -/
theorem stripLC_head (flag : Bool) (l : List Char) :
    (stripLC flag l).head? = some '/' → flag = false ∧ l.head? = some '/' := by
  induction flag, l using stripLC.induct with
  | case1 x => simp [stripLC]
  | case2 c rest h ih =>
    intro hh
    have hc : c = '\n' ∨ c = '\r' := by simpa [isLineEnd] using h
    rw [show stripLC true (c :: rest) = c :: stripLC false rest from by
      simp [stripLC, h]] at hh
    rcases hc with rfl | rfl <;> simp_all
  | case3 c rest h ih =>
    intro hh
    rw [show stripLC true (c :: rest) = stripLC true rest from by
      simp [stripLC, h]] at hh
    exact absurd (ih hh).1 (by simp)
  | case4 rest ih =>
    intro _; exact ⟨rfl, rfl⟩
  | case5 c rest hne ih =>
    intro hh
    rw [stripLC.eq_4 c rest hne] at hh
    simp only [List.head?_cons, Option.some.injEq] at hh
    exact ⟨rfl, by simp [hh]⟩

/-- Unfolding `occursIn` for the two-slash pattern. -/
theorem occursIn_dd_cons (a : Char) (l : List Char) :
    occursIn ['/', '/'] (a :: l) =
      (((a == '/') && (l.head? == some '/')) || occursIn ['/', '/'] l) := by
  cases l with
  | nil => by_cases ha : a = '/' <;> simp [occursIn, List.isPrefixOf, ha]
  | cons b t =>
    by_cases ha : a = '/' <;> by_cases hb : b = '/' <;>
      simp [occursIn, List.isPrefixOf, ha, hb, BEq.comm]

/-- The comment stripper never leaves two consecutive slashes. -/
theorem stripLC_no_dslash (flag : Bool) (l : List Char) :
    occursIn ['/', '/'] (stripLC flag l) = false := by
  induction flag, l using stripLC.induct with
  | case1 x => simp [stripLC, occursIn]
  | case2 c rest h ih =>
    rw [show stripLC true (c :: rest) = c :: stripLC false rest from by
      simp [stripLC, h]]
    rw [occursIn_dd_cons, ih]
    have hc : c = '\n' ∨ c = '\r' := by simpa [isLineEnd] using h
    rcases hc with rfl | rfl <;> simp
  | case3 c rest h ih =>
    rw [show stripLC true (c :: rest) = stripLC true rest from by
      simp [stripLC, h]]
    exact ih
  | case4 rest ih =>
    rw [show stripLC false ('/' :: '/' :: rest) = stripLC true rest from by
      simp [stripLC]]
    exact ih
  | case5 c rest hne ih =>
    rw [stripLC.eq_4 c rest hne, occursIn_dd_cons, ih]
    by_cases hc : c = '/'
    · subst hc
      have hhd : (stripLC false rest).head? ≠ some '/' := by
        intro hh
        rcases stripLC_head false rest hh with ⟨-, hr⟩
        cases rest with
        | nil => simp at hr
        | cons d t =>
          simp only [List.head?_cons, Option.some.injEq] at hr
          exact hne t rfl (by rw [hr])
      simp [beq_iff_eq, hhd]
    · simp [hc]

/-- An infix of a slash-free list is slash-free. -/
theorem occursIn_false_of_within {pat l1 l2 : List Char} (h : l1 <:+: l2)
    (h2 : occursIn pat l2 = false) : occursIn pat l1 = false := by
  cases hp : occursIn pat l1
  · rfl
  · have : occursIn pat l2 = true :=
      (occursIn_iff pat l2).mpr (((occursIn_iff pat l1).mp hp).trans h)
    simp [this] at h2

/-- The cleaned reply never contains two consecutive slashes. -/
theorem cleanResponse_no_dslash (s : String) :
    occursIn ['/', '/'] (cleanResponse s).data = false :=
  occursIn_false_of_within (trimChars_within _) (stripLC_no_dslash false _)


/-! ## Word-boundary correctness of the static unsafe-SQL check -/

/-- One scanning step moves the left-context into `leftOk`. -/
theorem leftOk_cons (p : Bool) (c : Char) (l : List Char) :
    leftOk p (c :: l) = leftOk (isWordChar c) l := by
  induction l generalizing p c with
  | nil => rfl
  | cons d t ih =>
    rw [show leftOk p (c :: d :: t) = leftOk p (d :: t) from rfl, ih, ih]

/-- `matchesCI` matches exactly the case-insensitive prefixes. -/
theorem matchesCI_iff (kwd : List Char) : ∀ t : List Char,
    matchesCI kwd t = true ↔
      ∃ m r, t = m ++ r ∧ m.map Char.toLower = kwd.map Char.toLower := by
  induction kwd with
  | nil =>
    intro t
    simp only [matchesCI, true_iff]
    exact ⟨[], t, rfl, rfl⟩
  | cons k ks ih =>
    intro t
    cases t with
    | nil =>
      simp only [matchesCI, Bool.false_eq_true, false_iff]
      rintro ⟨m, r, h, hm⟩
      rcases List.append_eq_nil.mp h.symm with ⟨rfl, -⟩
      simp at hm
    | cons c cs =>
      simp only [matchesCI, Bool.and_eq_true, beq_iff_eq, ih]
      constructor
      · rintro ⟨hk, m, r, rfl, hm⟩
        exact ⟨c :: m, r, rfl, by simp [hm, hk]⟩
      · rintro ⟨m, r, hmr, hm⟩
        cases m with
        | nil => simp at hm
        | cons a m' =>
          simp only [List.cons_append, List.cons.injEq] at hmr
          rcases hmr with ⟨rfl, rfl⟩
          simp only [List.map_cons, List.cons.injEq] at hm
          exact ⟨hm.1.symm, m', r, rfl, hm.2⟩

/-- Case-insensitively equal lists have equal length. -/
theorem map_toLower_length {m kwd : List Char}
    (hm : m.map Char.toLower = kwd.map Char.toLower) : m.length = kwd.length := by
  have := congrArg List.length hm
  simpa using this

/-- `wordAt` finds the keyword at the head with a trailing boundary. -/
theorem wordAt_iff (kwd t : List Char) :
    wordAt kwd t = true ↔
      ∃ m r, t = m ++ r ∧ m.map Char.toLower = kwd.map Char.toLower ∧
        boundaryAfter r = true := by
  unfold wordAt
  simp only [Bool.and_eq_true, matchesCI_iff]
  constructor
  · rintro ⟨⟨m, r, rfl, hm⟩, hb⟩
    refine ⟨m, r, rfl, hm, ?_⟩
    rwa [← map_toLower_length hm, List.drop_left] at hb
  · rintro ⟨m, r, rfl, hm, hb⟩
    exact ⟨⟨m, r, rfl, hm⟩, by rwa [← map_toLower_length hm, List.drop_left]⟩

/-- Correctness of the scan: a match somewhere with both boundaries. -/
theorem scanWord_iff (kwd : List Char) (hk : kwd ≠ []) :
    ∀ (s : List Char) (prevWord : Bool),
      scanWord kwd prevWord s = true ↔
        ∃ l m r, s = l ++ m ++ r ∧ m.map Char.toLower = kwd.map Char.toLower ∧
          leftOk prevWord l = true ∧ boundaryAfter r = true := by
  intro s
  induction s with
  | nil =>
    intro prevWord
    simp only [scanWord, Bool.false_eq_true, false_iff]
    rintro ⟨l, m, r, h, hm, -, -⟩
    rcases List.append_eq_nil.mp h.symm with ⟨h2, rfl⟩
    rcases List.append_eq_nil.mp h2 with ⟨rfl, rfl⟩
    exact hk (by simpa using hm.symm)
  | cons c cs ih =>
    intro prevWord
    rw [show scanWord kwd prevWord (c :: cs) =
      ((!prevWord && wordAt kwd (c :: cs)) || scanWord kwd (isWordChar c) cs) from rfl]
    simp only [Bool.or_eq_true, Bool.and_eq_true, Bool.not_eq_true', ih, wordAt_iff]
    constructor
    · rintro (⟨hp, m, r, hmr, hm, hb⟩ | ⟨l, m, r, hmr, hm, hl, hb⟩)
      · exact ⟨[], m, r, by simpa using hmr, hm, by simp [leftOk, hp], hb⟩
      · exact ⟨c :: l, m, r, by simp [hmr], hm, by rwa [leftOk_cons], hb⟩
    · rintro ⟨l, m, r, hmr, hm, hl, hb⟩
      cases l with
      | nil =>
        left
        refine ⟨by simpa [leftOk] using hl, m, r, by simpa using hmr, hm, hb⟩
      | cons a l' =>
        right
        simp only [List.cons_append, List.cons.injEq] at hmr
        rcases hmr with ⟨rfl, rfl⟩
        exact ⟨l', m, r, rfl, hm, by rwa [leftOk_cons] at hl, hb⟩

/-- `leftOk` only looks at the last character. -/
theorem leftOk_concat (p : Bool) (l0 : List Char) (c : Char) :
    leftOk p (l0 ++ [c]) = !isWordChar c := by
  induction l0 generalizing p with
  | nil => rfl
  | cons a t ih => rw [List.cons_append, leftOk_cons, ih]

/-- `leftOk false` spelled out as the claim states it. -/
theorem leftOk_false_iff (l : List Char) :
    leftOk false l = true ↔
      (l = [] ∨ ∃ l0 c, l = l0 ++ [c] ∧ isWordChar c = false) := by
  rcases l.eq_nil_or_concat with rfl | ⟨l0, c, rfl⟩
  · simp [leftOk]
  · rw [List.concat_eq_append, leftOk_concat]
    constructor
    · intro h
      exact Or.inr ⟨l0, c, rfl, by simpa using h⟩
    · rintro (h | ⟨l0', c', heq, hw⟩)
      · simp at h
      · have hc : c = c' := by
          have h1 := congrArg List.getLast? heq
          rw [List.getLast?_concat, List.getLast?_concat] at h1
          exact Option.some.inj h1
        subst hc
        simp [hw]

/-- `boundaryAfter` spelled out as the claim states it. -/
theorem boundaryAfter_iff (r : List Char) :
    boundaryAfter r = true ↔
      (r = [] ∨ ∃ c r0, r = c :: r0 ∧ isWordChar c = false) := by
  cases r with
  | nil => simp [boundaryAfter]
  | cons c r0 =>
    simp only [boundaryAfter, Bool.not_eq_true']
    constructor
    · intro h; exact Or.inr ⟨c, r0, rfl, h⟩
    · rintro (h | ⟨c', r0', heq, hw⟩)
      · simp at h
      · rcases List.cons.inj heq with ⟨rfl, rfl⟩
        exact hw

/-- The regex test agrees with the specification-side predicate. -/
theorem testWordBoundaryCI_iff (kw s : String) (hk : kw.data ≠ []) :
    testWordBoundaryCI kw s = true ↔ ContainsWholeWordCI kw s := by
  unfold testWordBoundaryCI ContainsWholeWordCI
  rw [scanWord_iff kw.data hk s.data false]
  refine exists_congr fun l => exists_congr fun m => exists_congr fun r => ?_
  rw [leftOk_false_iff, boundaryAfter_iff]

/-- `checkUnsafeOperations` is true exactly when some keyword of the fixed set occurs as a whole word, in any letter case. -/
theorem checkUnsafeOperations_iff (s : String) :
    checkUnsafeOperations s = true ↔
      ∃ kw, kw ∈ unsafeKeywords ∧ ContainsWholeWordCI kw s := by
  unfold checkUnsafeOperations
  rw [List.any_eq_true]
  constructor
  · rintro ⟨kw, hkw, ht⟩
    have hne : kw.data ≠ [] := by
      simp only [unsafeKeywords, List.mem_cons, List.not_mem_nil, or_false] at hkw
      rcases hkw with rfl | rfl | rfl | rfl | rfl <;> decide
    exact ⟨kw, hkw, (testWordBoundaryCI_iff kw s hne).mp ht⟩
  · rintro ⟨kw, hkw, hc⟩
    have hne : kw.data ≠ [] := by
      simp only [unsafeKeywords, List.mem_cons, List.not_mem_nil, or_false] at hkw
      rcases hkw with rfl | rfl | rfl | rfl | rfl <;> decide
    exact ⟨kw, hkw, (testWordBoundaryCI_iff kw s hne).mpr hc⟩

/-! ## Containment lemmas for the schema rendering -/

/-- An infix of the right part is an infix of an append. -/
theorem infix_of_infix_right {x b : List Char} (a : List Char) (h : x <:+: b) :
    x <:+: a ++ b := h.trans (List.suffix_append a b).isInfix

/-- An infix of the left part is an infix of an append. -/
theorem infix_of_infix_left {x a : List Char} (b : List Char) (h : x <:+: a) :
    x <:+: a ++ b := h.trans (List.prefix_append a b).isInfix

/-- Every member of a join occurs in the joined string. -/
theorem mem_joinSep_within (sep : String) {s : String} : ∀ {l : List String},
    s ∈ l → s.data <:+: (joinSep sep l).data := by
  intro l
  induction l with
  | nil => intro h; simp at h
  | cons x rest ih =>
    intro hs
    cases rest with
    | nil =>
      rcases List.mem_singleton.mp hs with rfl
      exact List.infix_refl _
    | cons y t =>
      rcases List.mem_cons.mp hs with rfl | hmem
      · rw [show joinSep sep (s :: y :: t) = s ++ sep ++ joinSep sep (y :: t) from rfl]
        simp only [String.data_append]
        exact ((List.prefix_append _ _).trans (List.prefix_append _ _)).isInfix
      · rw [show joinSep sep (x :: y :: t) = x ++ sep ++ joinSep sep (y :: t) from rfl]
        simp only [String.data_append]
        exact infix_of_infix_right _ (ih hmem)

/-- Each column's rendering occurs in the rendered table schema. -/
theorem formatTableSchema_column (t : TableSchema) (col : ColumnSchema)
    (h : col ∈ t.columns) :
    (formatColumnInfo col).data <:+: (formatTableSchema t).data := by
  have hJ : (formatColumnInfo col).data <:+:
      (joinSep ", " (t.columns.map formatColumnInfo)).data :=
    mem_joinSep_within _ (List.mem_map_of_mem _ h)
  unfold formatTableSchema
  cases hsd : t.sampleData with
  | none =>
    simp only [String.data_append]
    exact infix_of_infix_right _ hJ
  | some entries =>
    by_cases he : entries.length > 0
    · simp only [he, if_true, String.data_append]
      refine hJ.trans ⟨("Table " ++ t.tableName ++ ": ").data, ("\nSample Data: \x7b " ++
        joinSep ", " (entries.map (fun kv => kv.1 ++ ": " ++ sampleValueStr kv.2)) ++
        " \x7d").data, ?_⟩
      simp [String.data_append, List.append_assoc]
    · simp only [he, if_false, String.data_append]
      exact infix_of_infix_right _ hJ

/-- Each sample entry's rendering occurs in the rendered table schema. -/
theorem formatTableSchema_sample (t : TableSchema) (entries : List (String × JVal))
    (kv : String × JVal) (hsd : t.sampleData = some entries) (h : kv ∈ entries) :
    (kv.1 ++ ": " ++ sampleValueStr kv.2).data <:+: (formatTableSchema t).data := by
  have hJ : (kv.1 ++ ": " ++ sampleValueStr kv.2).data <:+:
      (joinSep ", " (entries.map (fun kv => kv.1 ++ ": " ++ sampleValueStr kv.2))).data :=
    mem_joinSep_within _ (List.mem_map_of_mem _ h)
  have he : entries.length > 0 := by
    cases entries with
    | nil => simp at h
    | cons a t2 => simp
  unfold formatTableSchema
  rw [hsd]
  simp only [he, if_true, String.data_append]
  refine hJ.trans ⟨("Table " ++ t.tableName ++ ": " ++
    joinSep ", " (t.columns.map formatColumnInfo) ++ "\nSample Data: \x7b ").data,
    (" \x7d").data, ?_⟩
  simp [String.data_append, List.append_assoc]

/-! ## Lemmas about reply validation and the generation pipeline -/

/-- The shared field check characterised. -/
theorem isValidShape_iff (r : RawResult) :
    isValidShape r = true ↔
      (∃ s, r.sql = .jstr s ∧ s ≠ "") ∧ (∃ b, r.isUnsafe = .jbool b) ∧
      (∃ e, r.explanation = .jstr e ∧ e ≠ "") := by
  rcases r with ⟨sql, isU, exp, cc⟩
  cases sql <;> cases isU <;> cases exp <;>
    simp [isValidShape, truthy, isStringJ, isBooleanJ]

/-- `Array.prototype.includes` characterised. -/
theorem includesStr_iff (l : List String) (v : JVal) :
    includesStr l v = true ↔ ∃ ty, v = .jstr ty ∧ ty ∈ l := by
  cases v <;> simp [includesStr]

/-- A reply accepted by the pipeline came from the network, parsed after
cleaning, validated, and was post-processed by the unsafe check. -/
theorem llmRoundTrip_ok {validate : RawResult → Except String Unit}
    {llmReply : Except String String} {parse : String → Except String RawResult}
    {q : RawResult} (h : (llmRoundTrip validate llmReply parse).2 = .ok q) :
    ∃ resp raw, llmReply = .ok resp ∧ parse (cleanResponse resp) = .ok raw ∧
      validate raw = .ok () ∧ q = applyUnsafeCheck raw := by
  unfold llmRoundTrip at h
  cases hr : llmReply with
  | error e => rw [hr] at h; simp at h
  | ok resp =>
    rw [hr] at h
    dsimp only at h
    cases hp : parseAndValidateWith validate parse resp with
    | error e => rw [hp] at h; simp at h
    | ok raw =>
      rw [hp] at h
      simp only [Except.ok.injEq] at h
      unfold parseAndValidateWith at hp
      cases hpp : parse (cleanResponse resp) with
      | error e => rw [hpp] at hp; simp at hp
      | ok raw2 =>
        rw [hpp] at hp
        dsimp only at hp
        cases hv : validate raw2 with
        | error e => rw [hv] at hp; simp at hp
        | ok u =>
          rw [hv] at hp
          dsimp only at hp
          simp only [Except.ok.injEq] at hp
          subst hp
          exact ⟨resp, raw2, rfl, hpp, by cases u; exact hv, h.symm⟩

/-- `isUnsafe ||= checkUnsafeOperations(sql)` on a well-shaped reply. -/
theorem applyUnsafeCheck_spec {raw : RawResult} {b : Bool} {s : String}
    (hb : raw.isUnsafe = .jbool b) (hs : raw.sql = .jstr s) :
    applyUnsafeCheck raw =
      { raw with isUnsafe := .jbool (b || checkUnsafeOperations s) } := by
  rcases raw with ⟨sql, isU, exp, cc⟩
  simp only at hb hs
  subst hb; subst hs
  cases b <;> simp [applyUnsafeCheck, truthy, jvalToString]

/-- The `gemini.service.ts` validator accepts exactly the well-shaped
replies. -/
theorem gemini1_validate_ok (r : RawResult) :
    Gemini1.validateQueryResult r = .ok () ↔ isValidShape r = true := by
  unfold Gemini1.validateQueryResult
  cases h : isValidShape r <;> simp [h]

/-- A successful `Gemini1.generateQuery` went through the shared pipeline. -/
theorem gemini1_generateQuery_ok {schema : List TableSchema} {question : String}
    {em rt : Option String} {reply : Except String String}
    {parse : String → Except String RawResult} {q : RawResult}
    (h : (Gemini1.generateQuery schema question em rt reply parse).2 = .ok q) :
    (llmRoundTrip Gemini1.validateQueryResult reply parse).2 = .ok q := by
  unfold Gemini1.generateQuery at h
  cases em with
  | some m => exact h
  | none =>
    by_cases h1 : schema.isEmpty
    · rw [if_pos h1] at h; simp at h
    · rw [if_neg h1] at h
      by_cases h2 : (trimJS question == "") = true
      · rw [if_pos h2] at h; simp at h
      · rwa [if_neg h2] at h

/-! ## The if-chain of `analyzeError` is first-match over the category list -/

/-- `analyzeError` equals the first-matching-category classifier followed by
the fixed suffix. -/
theorem analyzeError_eq_classify (m : String) :
    analyzeError m = classifyError m ++ adviceSuffix := by
  unfold analyzeError classifyError errorCategories
  by_cases h1 : occursIn "syntax error".data (lowerStr m).data = true
  · simp [List.find?, h1]
  · simp only [Bool.not_eq_true] at h1
    by_cases h2 : occursIn "ambiguous column".data (lowerStr m).data = true
    · simp [List.find?, h1, h2]
    · simp only [Bool.not_eq_true] at h2
      by_cases h3 : occursIn "invalid column".data (lowerStr m).data = true
      · simp [List.find?, h1, h2, h3]
      · simp only [Bool.not_eq_true] at h3
        by_cases h4 : occursIn "table not found".data (lowerStr m).data = true
        · simp [List.find?, h1, h2, h3, h4]
        · simp only [Bool.not_eq_true] at h4
          by_cases h5 : occursIn "group by".data (lowerStr m).data = true
          · simp [List.find?, h1, h2, h3, h4, h5]
          · simp only [Bool.not_eq_true] at h5
            by_cases h6 : occursIn "incorrect number of arguments".data (lowerStr m).data = true
            · simp [List.find?, h1, h2, h3, h4, h5, h6]
            · simp only [Bool.not_eq_true] at h6
              by_cases h7 : occursIn "does not exist".data (lowerStr m).data = true
              · simp [List.find?, h1, h2, h3, h4, h5, h6, h7]
              · simp only [Bool.not_eq_true] at h7
                simp [List.find?, h1, h2, h3, h4, h5, h6, h7]

/-! ## Trace lemmas for the orchestrator -/

namespace Server

/-- The regeneration step makes exactly one generation call and at most one
further executor call. -/
theorem handleQueryRegeneration_counts (env : ExecEnv) (qe : String)
    (schema : List TableSchema) (question : String) (rt ct : Option String) :
    countGen (handleQueryRegeneration env qe schema question rt ct).1 = 1 ∧
    countExec (handleQueryRegeneration env qe schema question rt ct).1 ≤ 1 := by
  unfold handleQueryRegeneration executeRegeneratedQuery
  cases h : (regenerateQuery env schema question qe rt ct).2 with
  | error e =>
    simp [h, countGen, countExec, List.countP_cons, List.countP_nil, isGenEvent, isExecEvent]
  | ok regen =>
    cases h2 : env.dbQuery (jvalToString regen.sql) with
    | ok rows =>
      simp [h, h2, countGen, countExec, List.countP_cons, List.countP_nil,
        isGenEvent, isExecEvent]
    | error e2 =>
      simp [h, h2, countGen, countExec, List.countP_cons, List.countP_nil,
        isGenEvent, isExecEvent]

/-- The regeneration step answers either with the regenerated query's rows,
sql and explanation bundled with the original error, or with a 500 bundling
the new error and the original one. -/
theorem handleQueryRegeneration_response (env : ExecEnv) (qe : String)
    (schema : List TableSchema) (question : String) (rt ct : Option String) :
    (∃ rows sql2 expl,
      (handleQueryRegeneration env qe schema question rt ct).2 =
        .okRegen rows sql2 expl qe) ∨
    (∃ e2, (handleQueryRegeneration env qe schema question rt ct).2 =
        .errRegen e2 qe 500) := by
  unfold handleQueryRegeneration executeRegeneratedQuery
  cases h : (regenerateQuery env schema question qe rt ct).2 with
  | error e => right; exact ⟨e, by simp [h]⟩
  | ok regen =>
    cases h2 : env.dbQuery (jvalToString regen.sql) with
    | ok rows =>
      left
      exact ⟨rows, jvalToString regen.sql, jvalToString regen.explanation, by simp [h, h2]⟩
    | error e2 => right; exact ⟨e2, by simp [h, h2]⟩

/-- Per-request bounds: at most one generation call and at most two executor
calls, whatever the oracles do. -/
theorem handleQueryExecution_counts (env : ExecEnv) (req : ExecuteQueryRequest) :
    countGen (handleQueryExecution env req).1 ≤ 1 ∧
    countExec (handleQueryExecution env req).1 ≤ 2 := by
  unfold handleQueryExecution executeQueryWithHandling validateQuerySafety
  by_cases hs : (req.isUnsafe && !env.allowUnsafeQueries) = true
  · simp [hs, countGen, countExec, List.countP_cons, List.countP_nil, isGenEvent, isExecEvent]
  · rw [if_neg hs]
    cases hc : env.connect with
    | error e =>
      simp [countGen, countExec, List.countP_cons, List.countP_nil, isGenEvent, isExecEvent]
    | ok u =>
      cases hq : env.dbQuery req.query with
      | ok rows =>
        simp [countGen, countExec, List.countP_cons, List.countP_nil, isGenEvent, isExecEvent]
      | error qe =>
        cases hsch : req.schema with
        | none =>
          simp [hsch, countGen, countExec, List.countP_cons, List.countP_nil,
            isGenEvent, isExecEvent, handleQueryError]
        | some schema =>
          cases hqs : req.question with
          | none =>
            simp [hsch, hqs, countGen, countExec, List.countP_cons, List.countP_nil,
              isGenEvent, isExecEvent, handleQueryError]
          | some question =>
            by_cases hq0 : question = ""
            · simp [hsch, hqs, hq0, countGen, countExec, List.countP_cons, List.countP_nil,
                isGenEvent, isExecEvent, handleQueryError]
            · rcases handleQueryRegeneration_counts env qe schema question
                req.referenceText req.chartType with ⟨hg, he⟩
              simp only [hsch, hqs, beq_iff_eq, hq0, if_false, countGen, countExec,
                List.countP_cons, isGenEvent, isExecEvent, Bool.false_eq_true,
                eq_self_iff_true, if_true] at *
              constructor <;> omega
end Server

namespace Server

/-- When the request carries schema and a non-empty question, the first
execution error hands over to the regeneration step, whose trace and
response the handler returns unchanged. -/
theorem handleQueryExecution_regen (env : ExecEnv) (req : ExecuteQueryRequest)
    (schema : List TableSchema) (question m : String)
    (hsch : req.schema = some schema) (hqs : req.question = some question)
    (hq0 : question ≠ "") (hs : (req.isUnsafe && !env.allowUnsafeQueries) = false)
    (hc : env.connect = .ok ()) (hq : env.dbQuery req.query = .error m) :
    (handleQueryExecution env req).1 =
      .safetyCheck req.isUnsafe env.allowUnsafeQueries :: .connectCall ::
        .execCall req.query ::
        (handleQueryRegeneration env m schema question req.referenceText req.chartType).1 ∧
    (handleQueryExecution env req).2 =
      (handleQueryRegeneration env m schema question req.referenceText req.chartType).2 := by
  unfold handleQueryExecution executeQueryWithHandling validateQuerySafety
  simp [hs, hc, hq, hsch, hqs, beq_iff_eq, hq0]

end Server

/-! ## Remaining support lemmas -/

/-- The pipeline always makes the network call once reached. -/
theorem llmRoundTrip_networkCalled (validate : RawResult → Except String Unit)
    (reply : Except String String) (parse : String → Except String RawResult) :
    (llmRoundTrip validate reply parse).1 = true := by
  unfold llmRoundTrip
  cases reply with
  | error e => rfl
  | ok resp =>
    cases hp : parseAndValidateWith validate parse resp <;> simp [hp]

/-- The introspection loop is a map over the discovered tables. -/
theorem buildSchema_eq_map (env : SchemaEnv) : ∀ ts : List String,
    buildSchema env ts =
      ts.map (fun t => ⟨t, getTableColumns env t, getSampleData env t⟩) := by
  intro ts
  induction ts with
  | nil => rfl
  | cons t rest ih => simp [buildSchema, ih]

/-- The OpenAI chart list and the specification's enumeration have the same
members. -/
theorem openai_chart_mem (ty : String) :
    ty ∈ OpenAIService.validChartTypes ↔ ty ∈ recognizedChartKinds := by
  simp [OpenAIService.validChartTypes, recognizedChartKinds]
  tauto

/-- The db.service Gemini chart list is contained in the specification's
enumeration. -/
theorem gemini2_chart_mem (ty : String) :
    ty ∈ Gemini2.validChartTypes → ty ∈ recognizedChartKinds := by
  simp [Gemini2.validChartTypes, recognizedChartKinds]
  tauto

/-- `OpenAIService.validateQueryResult` accepts exactly the well-shaped
replies whose chart kind, when present, is recognized. -/
theorem openai_validate_iff (r : RawResult) :
    OpenAIService.validateQueryResult r = .ok () ↔
      (isValidShape r = true ∧
       ∀ cc, r.chartConfig = some cc →
         includesStr OpenAIService.validChartTypes cc.type = true) := by
  unfold OpenAIService.validateQueryResult
  cases hv : isValidShape r with
  | false => simp [hv]
  | true =>
    cases hcc : r.chartConfig with
    | none => simp [hcc]
    | some cc =>
      cases hin : includesStr OpenAIService.validChartTypes cc.type with
      | false => simp [hcc, hin]
      | true => simp [hcc, hin]

/-- `Gemini2.validateQueryResult` accepts only well-shaped replies whose
chart kind, when present, is one of its three literals. -/
theorem gemini2_validate_ok (r : RawResult) :
    Gemini2.validateQueryResult r = .ok () →
      (isValidShape r = true ∧
       ∀ cc, r.chartConfig = some cc →
         includesStr Gemini2.validChartTypes cc.type = true) := by
  intro h
  unfold Gemini2.validateQueryResult at h
  cases hv : isValidShape r with
  | false => rw [hv] at h; simp at h
  | true =>
    refine ⟨rfl, ?_⟩
    intro cc hcc
    rw [hv, hcc] at h
    dsimp only at h
    cases hin : includesStr Gemini2.validChartTypes cc.type with
    | false => rw [hin] at h; simp at h
    | true => rfl

/-- The fallback instruction quotes the raw error message. -/
theorem adviceFallback_quotes (m : String) :
    occursIn m.data (adviceFallback m).data = true := by
  rw [occursIn_iff]
  unfold adviceFallback
  simp only [String.data_append]
  exact infix_of_infix_left _ (infix_of_infix_right _ (List.infix_refl _))

/-! ## Claim theorems -/

/-- Claim C1 (code bug): the specification says the safety check runs
strictly before the executor on every attempt, including the regenerated
one, so that a query flagged unsafe is never executed under the default
policy.  The code violates this: `executeRegeneratedQuery` runs
`pool.query(regenerated.sql)` without re-applying `validateQuerySafety`.
At this input the regeneration returns a DELETE whose derived `isUnsafe` is
`true`, yet under `allowUnsafeQueries = false` the handler executes it: the
safety gate fires once while the executor fires twice, the second time on
the regenerated DELETE. -/
theorem c1_regenerated_unsafe_executed :
    envC1.allowUnsafeQueries = false ∧
    (Server.regenerateQuery envC1 [usersTable] "list user names"
        "Unknown column name in field list" none none).2 =
      .ok { rawDeleteReply with isUnsafe := .jbool true } ∧
    Server.handleQueryExecution envC1 reqC1 =
      ([.safetyCheck false false, .connectCall, .execCall "SELECT name FROM user",
        .genCall, .execCall "DELETE FROM users"],
       .okRegen [[("affected", .jnum 5 0)]] "DELETE FROM users"
         "removes all user rows" "Unknown column name in field list") ∧
    Server.countSafety (Server.handleQueryExecution envC1 reqC1).1 = 1 ∧
    Server.countExec (Server.handleQueryExecution envC1 reqC1).1 = 2 :=
  ⟨rfl, rfl, by decide, rfl, rfl⟩

/-- Claim C2: every reply the generation service returns successfully has
`isUnsafe` equal to the parsed flag OR-ed with the static keyword check of
the returned sql text, and the static check is true exactly when one of
DROP, TRUNCATE, ALTER, DELETE, UPDATE occurs in the sql as a whole word
(word-boundary match), in any letter case. -/
theorem c2_isUnsafe_rederivation :
    (∀ (schema : List TableSchema) (question : String) (em rt : Option String)
       (reply : Except String String) (parse : String → Except String RawResult)
       (q : RawResult),
      (Gemini1.generateQuery schema question em rt reply parse).2 = .ok q →
      ∃ resp raw b s,
        reply = .ok resp ∧
        parse (cleanResponse resp) = .ok raw ∧
        raw.isUnsafe = .jbool b ∧ raw.sql = .jstr s ∧
        q.sql = .jstr s ∧ q.explanation = raw.explanation ∧
        q.chartConfig = raw.chartConfig ∧
        q.isUnsafe = .jbool (b || checkUnsafeOperations s)) ∧
    (∀ s : String, checkUnsafeOperations s = true ↔
      ∃ kw, kw ∈ unsafeKeywords ∧ ContainsWholeWordCI kw s) := by
  constructor
  · intro schema question em rt reply parse q h
    have h1 := gemini1_generateQuery_ok h
    rcases llmRoundTrip_ok h1 with ⟨resp, raw, hre, hpa, hv, hq⟩
    have hshape := (gemini1_validate_ok raw).mp hv
    rcases (isValidShape_iff raw).mp hshape with ⟨⟨s, hs, hs0⟩, ⟨b, hb⟩, -⟩
    subst hq
    rw [applyUnsafeCheck_spec hb hs]
    exact ⟨resp, raw, b, s, hre, hpa, hb, hs, hs, rfl, rfl, rfl⟩
  · exact checkUnsafeOperations_iff

/-- Claim C2 witness: a concrete run with a self-reported-safe DROP reply. -/
theorem c2_witness :
    ∃ resp raw b s,
      (Except.ok "x" : Except String String) = .ok resp ∧
      parseDrop (cleanResponse resp) = .ok raw ∧
      raw.isUnsafe = .jbool b ∧ raw.sql = .jstr s ∧
      qDrop.sql = .jstr s ∧ qDrop.explanation = raw.explanation ∧
      qDrop.chartConfig = raw.chartConfig ∧
      qDrop.isUnsafe = .jbool (b || checkUnsafeOperations s) :=
  c2_isUnsafe_rederivation.1 [] "q" (some "prior error") none (.ok "x")
    parseDrop qDrop rfl

/-- Claim C3 counterexample: an execute request without schema/question
context receives no regeneration after its first execution error — zero
generation calls, not exactly one. -/
theorem c3_counterexample :
    Server.handleQueryExecution envAlwaysFail reqNoContext =
      ([.safetyCheck false false, .connectCall, .execCall "SELECT 1"],
       .errOut "table missing" 500) ∧
    Server.countGen (Server.handleQueryExecution envAlwaysFail reqNoContext).1 = 0 ∧
    Server.countExec (Server.handleQueryExecution envAlwaysFail reqNoContext).1 = 1 :=
  ⟨by decide, rfl, rfl⟩

/-- Claim C3 (amended): per request the generation service is called at most
once and the executor at most twice; when schema and a non-empty question
accompany the request and the reachable first execution fails, exactly one
regeneration attempt follows. -/
theorem c3_regeneration_bounds :
    (∀ (env : Server.ExecEnv) (req : Server.ExecuteQueryRequest),
      Server.countGen (Server.handleQueryExecution env req).1 ≤ 1 ∧
      Server.countExec (Server.handleQueryExecution env req).1 ≤ 2) ∧
    (∀ (env : Server.ExecEnv) (req : Server.ExecuteQueryRequest)
       (schema : List TableSchema) (question m : String),
      req.schema = some schema → req.question = some question → question ≠ "" →
      (req.isUnsafe && !env.allowUnsafeQueries) = false →
      env.connect = .ok () → env.dbQuery req.query = .error m →
      Server.countGen (Server.handleQueryExecution env req).1 = 1) := by
  constructor
  · exact Server.handleQueryExecution_counts
  · intro env req schema question m hsch hqs hq0 hs hc hq
    rcases Server.handleQueryExecution_regen env req schema question m hsch hqs
      hq0 hs hc hq with ⟨htr, -⟩
    rw [htr]
    rcases Server.handleQueryRegeneration_counts env m schema question
      req.referenceText req.chartType with ⟨hg, -⟩
    simpa [Server.countGen, List.countP_cons, Server.isGenEvent] using hg

/-- Claim C3 witness: a request with context, failing database, failing
reparse — still exactly one generation call. -/
theorem c3_witness :
    Server.countGen (Server.handleQueryExecution envAlwaysFail reqWithContext).1 = 1 :=
  c3_regeneration_bounds.2 envAlwaysFail reqWithContext [usersTable]
    "list names" "table missing" rfl rfl (by decide) rfl rfl rfl

/-- Claim C4 counterexample: with an empty schema the provider is still
invoked — on the `gemini.service.ts` regeneration path (prior error
supplied), and on every `db.service.ts` Gemini path even with a blank
question as well. -/
theorem c4_counterexample :
    (Gemini1.generateQuery [] "q" (some "previous execution error") none
      (.ok "resp") parseNever).1 = true ∧
    (Gemini2.generateQuery [] "" none none none (.ok "resp") parseNever).1 = true :=
  ⟨rfl, rfl⟩

/-- Claim C4 (amended): the OpenAI service rejects an empty schema or blank
question before any network call on every path; the `gemini.service.ts`
Gemini service does so only when no prior error message is supplied, and
its regeneration path always reaches the network; the `db.service.ts`
Gemini service always reaches the network. -/
theorem c4_validation_paths :
    (∀ (schema : List TableSchema) (question : String) (em rt ct : Option String)
       (reply : Except String String) (parse : String → Except String RawResult),
      schema = [] ∨ trimJS question = "" →
      (OpenAIService.generateQuery schema question em rt ct reply parse).1 = false ∧
      ((OpenAIService.generateQuery schema question em rt ct reply parse).2 =
          .error "Database schema is required" ∨
       (OpenAIService.generateQuery schema question em rt ct reply parse).2 =
          .error "Question is required")) ∧
    (∀ (schema : List TableSchema) (question : String) (rt : Option String)
       (reply : Except String String) (parse : String → Except String RawResult),
      schema = [] ∨ trimJS question = "" →
      (Gemini1.generateQuery schema question none rt reply parse).1 = false ∧
      ((Gemini1.generateQuery schema question none rt reply parse).2 =
          .error "Failed to generate SQL query: Database schema is required" ∨
       (Gemini1.generateQuery schema question none rt reply parse).2 =
          .error "Failed to generate SQL query: Question is required")) ∧
    (∀ (schema : List TableSchema) (question m : String) (rt : Option String)
       (reply : Except String String) (parse : String → Except String RawResult),
      (Gemini1.generateQuery schema question (some m) rt reply parse).1 = true) ∧
    (∀ (schema : List TableSchema) (question : String) (em rt ct : Option String)
       (reply : Except String String) (parse : String → Except String RawResult),
      (Gemini2.generateQuery schema question em rt ct reply parse).1 = true) := by
  refine ⟨?_, ?_, ?_, ?_⟩
  · intro schema question em rt ct reply parse h
    unfold OpenAIService.generateQuery
    rcases h with rfl | hq
    · exact ⟨rfl, Or.inl rfl⟩
    · by_cases he : schema.isEmpty
      · rw [if_pos he]; exact ⟨rfl, Or.inl rfl⟩
      · rw [if_neg he, if_pos (show (trimJS question == "") = true by simp [hq])]
        exact ⟨rfl, Or.inr rfl⟩
  · intro schema question rt reply parse h
    unfold Gemini1.generateQuery
    rcases h with rfl | hq
    · exact ⟨rfl, Or.inl rfl⟩
    · by_cases he : schema.isEmpty
      · rw [if_pos he]; exact ⟨rfl, Or.inl rfl⟩
      · rw [if_neg he, if_pos (show (trimJS question == "") = true by simp [hq])]
        exact ⟨rfl, Or.inr rfl⟩
  · intro schema question m rt reply parse
    unfold Gemini1.generateQuery
    exact llmRoundTrip_networkCalled _ _ _
  · intro schema question em rt ct reply parse
    unfold Gemini2.generateQuery
    exact llmRoundTrip_networkCalled _ _ _

/-- Claim C4 witness: the OpenAI service with an empty schema makes no
network call and fails with the validation message. -/
theorem c4_witness :
    (OpenAIService.generateQuery [] "list users" none none none (.ok "resp")
      parseNever).1 = false ∧
    ((OpenAIService.generateQuery [] "list users" none none none (.ok "resp")
        parseNever).2 = .error "Database schema is required" ∨
     (OpenAIService.generateQuery [] "list users" none none none (.ok "resp")
        parseNever).2 = .error "Question is required") :=
  c4_validation_paths.1 [] "list users" none none none (.ok "resp") parseNever
    (Or.inl rfl)

/-- Claim C5: reply validation succeeds only when `sql` is a non-empty
string, `isUnsafe` a boolean, `explanation` a non-empty string, and a
present chart configuration's type is one of the recognized enumeration;
for the OpenAI service this is exact (if and only if), for the
`db.service.ts` Gemini service it is necessary (its accepted set
`pie, line, bar` is contained in the enumeration). -/
theorem c5_reply_validation :
    (∀ r : RawResult,
      OpenAIService.validateQueryResult r = .ok () ↔
        ((∃ s, r.sql = .jstr s ∧ s ≠ "") ∧ (∃ b, r.isUnsafe = .jbool b) ∧
         (∃ e, r.explanation = .jstr e ∧ e ≠ "") ∧
         ∀ cc, r.chartConfig = some cc →
           ∃ ty, cc.type = .jstr ty ∧ ty ∈ recognizedChartKinds)) ∧
    (∀ r : RawResult,
      Gemini2.validateQueryResult r = .ok () →
        ((∃ s, r.sql = .jstr s ∧ s ≠ "") ∧ (∃ b, r.isUnsafe = .jbool b) ∧
         (∃ e, r.explanation = .jstr e ∧ e ≠ "") ∧
         ∀ cc, r.chartConfig = some cc →
           ∃ ty, cc.type = .jstr ty ∧ ty ∈ recognizedChartKinds)) := by
  constructor
  · intro r
    rw [openai_validate_iff]
    constructor
    · rintro ⟨hshape, hcc⟩
      rcases (isValidShape_iff r).mp hshape with ⟨h1, h2, h3⟩
      refine ⟨h1, h2, h3, ?_⟩
      intro cc h
      rcases (includesStr_iff _ _).mp (hcc cc h) with ⟨ty, hty, hmem⟩
      exact ⟨ty, hty, (openai_chart_mem ty).mp hmem⟩
    · rintro ⟨h1, h2, h3, hcc⟩
      refine ⟨(isValidShape_iff r).mpr ⟨h1, h2, h3⟩, ?_⟩
      intro cc h
      rcases hcc cc h with ⟨ty, hty, hmem⟩
      exact (includesStr_iff _ _).mpr ⟨ty, hty, (openai_chart_mem ty).mpr hmem⟩
  · intro r h
    rcases gemini2_validate_ok r h with ⟨hshape, hcc⟩
    rcases (isValidShape_iff r).mp hshape with ⟨h1, h2, h3⟩
    refine ⟨h1, h2, h3, ?_⟩
    intro cc h2c
    rcases (includesStr_iff _ _).mp (hcc cc h2c) with ⟨ty, hty, hmem⟩
    exact ⟨ty, hty, gemini2_chart_mem ty hmem⟩

/-- Claim C5 witness: a reply with a `doughnut` chart kind is accepted by
the OpenAI validator. -/
theorem c5_witness : OpenAIService.validateQueryResult chartOkReply = .ok () :=
  (c5_reply_validation.1 chartOkReply).mpr
    ⟨⟨"SELECT 1", rfl, by decide⟩, ⟨false, rfl⟩, ⟨"one row", rfl, by decide⟩,
     by
      intro cc hcc
      rw [show chartOkReply.chartConfig = some ⟨.jstr "doughnut"⟩ from rfl] at hcc
      cases Option.some.inj hcc
      exact ⟨"doughnut", rfl, by decide⟩⟩

/-- Claim C6: with a prior error message present, the splice-in instruction
is that of the first category of the fixed ordered list whose substring
occurs case-insensitively in the message, with the generic instruction —
which quotes the message verbatim — as fallback. -/
theorem c6_error_classification :
    (∀ m : String, analyzeError m = classifyError m ++ adviceSuffix) ∧
    (∀ m : String, occursIn m.data (adviceFallback m).data = true) :=
  ⟨analyzeError_eq_classify, adviceFallback_quotes⟩

/-- Claim C7: the rendered table schema contains each column as
`name (type)` with ` PRIMARY KEY` appended exactly when the key role is
`PRI`, and each sample entry as `key: value` with NULL rendered literally
and other values JSON-encoded; the specification's `orders` round-trip
example contains the three required substrings. -/
theorem c7_schema_rendering :
    (∀ (t : TableSchema) (col : ColumnSchema), col ∈ t.columns →
      (col.name ++ " (" ++ col.type ++ ")" ++
        (if col.key == some "PRI" then " PRIMARY KEY" else "")).data <:+:
        (formatTableSchema t).data) ∧
    (∀ (t : TableSchema) (entries : List (String × JVal)) (kv : String × JVal),
      t.sampleData = some entries → kv ∈ entries →
      (kv.1 ++ ": " ++
        (match kv.2 with | .jnull => "NULL" | v => jsonStringify v)).data <:+:
        (formatTableSchema t).data) ∧
    occursIn "orders".data (formatTableSchema ordersTable).data = true ∧
    occursIn "id (INT) PRIMARY KEY".data (formatTableSchema ordersTable).data = true ∧
    occursIn "total: 9.99".data (formatTableSchema ordersTable).data = true := by
  refine ⟨?_, ?_, by decide, by decide, by decide⟩
  · intro t col h
    exact formatTableSchema_column t col h
  · intro t entries kv hsd h
    exact formatTableSchema_sample t entries kv hsd h

/-- Claim C7 witness: the `id` column of the `orders` example. -/
theorem c7_witness :
    ((ColumnSchema.mk "id" "INT" (some "PRI")).name ++ " (" ++
      (ColumnSchema.mk "id" "INT" (some "PRI")).type ++ ")" ++
      (if (ColumnSchema.mk "id" "INT" (some "PRI")).key == some "PRI"
       then " PRIMARY KEY" else "")).data <:+: (formatTableSchema ordersTable).data :=
  c7_schema_rendering.1 ordersTable (ColumnSchema.mk "id" "INT" (some "PRI"))
    (by decide)

/-- Claim C8: once a first execution error triggers regeneration, the caller
receives either a success bundling the regenerated sql and explanation with
the original error message, or a failure bundling the regeneration
attempt's error with the original one; the generator runs exactly once more
and the executor at most twice in total — no third attempt. -/
theorem c8_regeneration_terminal :
    ∀ (env : Server.ExecEnv) (req : Server.ExecuteQueryRequest)
      (schema : List TableSchema) (question m : String),
      req.schema = some schema → req.question = some question → question ≠ "" →
      (req.isUnsafe && !env.allowUnsafeQueries) = false →
      env.connect = .ok () → env.dbQuery req.query = .error m →
      ((∃ rows sql2 expl,
          (Server.handleQueryExecution env req).2 = .okRegen rows sql2 expl m) ∨
       (∃ e2, (Server.handleQueryExecution env req).2 = .errRegen e2 m 500)) ∧
      Server.countGen (Server.handleQueryExecution env req).1 = 1 ∧
      Server.countExec (Server.handleQueryExecution env req).1 ≤ 2 := by
  intro env req schema question m hsch hqs hq0 hs hc hq
  rcases Server.handleQueryExecution_regen env req schema question m hsch hqs
    hq0 hs hc hq with ⟨htr, hresp⟩
  rcases Server.handleQueryRegeneration_counts env m schema question
    req.referenceText req.chartType with ⟨hg, he⟩
  refine ⟨?_, ?_, ?_⟩
  · rw [hresp]
    exact Server.handleQueryRegeneration_response env m schema question
      req.referenceText req.chartType
  · rw [htr]
    simpa [Server.countGen, List.countP_cons, Server.isGenEvent] using hg
  · rw [htr]
    simp only [Server.countExec, List.countP_cons, Server.isExecEvent,
      Bool.false_eq_true, eq_self_iff_true, if_true, if_false] at he ⊢
    omega

/-- Claim C8 witness: the C1 oracles exercise the success branch of the
regeneration outcome. -/
theorem c8_witness :
    ((∃ rows sql2 expl,
        (Server.handleQueryExecution envC1 reqC1).2 =
          .okRegen rows sql2 expl "Unknown column name in field list") ∨
     (∃ e2, (Server.handleQueryExecution envC1 reqC1).2 =
        .errRegen e2 "Unknown column name in field list" 500)) ∧
    Server.countGen (Server.handleQueryExecution envC1 reqC1).1 = 1 ∧
    Server.countExec (Server.handleQueryExecution envC1 reqC1).1 ≤ 2 :=
  c8_regeneration_terminal envC1 reqC1 [usersTable] "list user names"
    "Unknown column name in field list" rfl rfl (by decide) rfl rfl rfl

/-- Claim C9 counterexample: a failed table listing is swallowed —
introspection returns an empty schema instead of propagating the error. -/
theorem c9_counterexample : processSchemaRequest envListFail = .ok [] := rfl

/-- Claim C9 (amended): only the connectivity probe's failure propagates
(wrapped, message preserved verbatim); table-listing, column-description and
sample-row failures are all swallowed, as an empty table list, an empty
column list, and an absent sample row respectively. -/
theorem c9_introspection_error_policy :
    (∀ (env : SchemaEnv) (e : String), env.connectProbe = .error e →
      processSchemaRequest env = .error ("Failed to connect to database: " ++ e)) ∧
    (∀ env : SchemaEnv, env.connectProbe = .ok () →
      processSchemaRequest env =
        .ok ((getTables env).map (fun t =>
          ⟨t, getTableColumns env t, getSampleData env t⟩))) ∧
    (∀ (env : SchemaEnv) (e : String), env.listTables = .error e →
      getTables env = []) ∧
    (∀ (env : SchemaEnv) (t e : String), env.describeColumns t = .error e →
      getTableColumns env t = []) ∧
    (∀ (env : SchemaEnv) (t e : String), env.sampleRows t = .error e →
      getSampleData env t = none) := by
  refine ⟨?_, ?_, ?_, ?_, ?_⟩
  · intro env e h
    unfold processSchemaRequest testConnection
    rw [h]
  · intro env h
    unfold processSchemaRequest testConnection
    rw [h, buildSchema_eq_map]
  · intro env e h
    unfold getTables
    rw [h]
  · intro env t e h
    unfold getTableColumns
    rw [h]
  · intro env t e h
    unfold getSampleData
    rw [h]

/-- Claim C9 witness: a failed connectivity probe propagates wrapped with the
original message preserved. -/
theorem c9_witness :
    processSchemaRequest envConnFail =
      .error ("Failed to connect to database: " ++ "ECONNREFUSED") :=
  c9_introspection_error_policy.1 envConnFail "ECONNREFUSED" rfl

/-- Claim C10: the response cleaner deletes every `//` with the rest of its
line — the cleaned text never contains `//` — and a well-formed JSON reply
whose explanation holds a URL is truncated at the URL before any parsing. -/
theorem c10_comment_stripping :
    (∀ s : String, occursIn ['/', '/'] (cleanResponse s).data = false) ∧
    cleanResponse c10Reply = c10Expected :=
  ⟨cleanResponse_no_dslash, by decide⟩
